import Mathlib

/-!
Verification of the Bootcamp CRM lead-management application.

This file gives a shallow embedding, in Lean 4, of the business-rule logic of
the repository (Kanban workflow validation, board filtering, optimistic
update/rollback state transitions, team-recommendation ranking, AI intake
skill/priority mapping, member statistics, and the pending-skill fallback of
the opportunity services), and proves the specified properties about it.

Modelling conventions:
- TypeScript string unions are modelled as Lean `String`s.
- `null`/`undefined` fields are modelled with `Option`.
- JavaScript truthiness of a string (empty string is falsy) is modelled
  explicitly wherever the source relies on it.
- `Array.prototype.sort` with a comparator `cmp` is modelled by
  `List.mergeSort` with the boolean relation `cmp a b ≤ 0` (JavaScript sort is
  stable and merge sort realises it).
- `String.prototype.toLowerCase`, `trim` and `includes` are modelled by the
  structural functions `jsToLower`, `jsTrim` and `strIncludes` below, and
  `localeCompare` by the three-way comparison `strCompareInt` (lexicographic
  character order).
-/

/-- Model of JavaScript `String.prototype.toLowerCase` (ASCII case folding),
written by structural recursion so that it evaluates in the kernel. -/
def jsToLower (s : String) : String :=
  String.mk (s.data.map Char.toLower)

/-- Characters dropped from the front by `String.prototype.trim`. -/
def dropLeadingWs : List Char → List Char
  | [] => []
  | c :: cs => if c.isWhitespace then dropLeadingWs cs else c :: cs

/-- Model of JavaScript `String.prototype.trim`, written by structural
recursion so that it evaluates in the kernel. -/
def jsTrim (s : String) : String :=
  String.mk ((dropLeadingWs (dropLeadingWs s.data).reverse).reverse)

/-- Status, urgency and identifier fields of an opportunity record as produced
by `services/opportunities.ts` and consumed by `kanban-board.tsx`. -/
structure Opportunity where
  id : String
  status : String
  urgency : String
  requiredSkillId : Option String
  requiredSkillIds : List String
  assigneeId : Option String
  assignee : String
deriving DecidableEq

/-- Optional board filter settings (`filters` prop of `KanbanBoard`). -/
structure Filters where
  urgency : Option String
  skill : Option String
  assignedTeam : Option String
deriving DecidableEq

/-- Result record of the workflow validator (`{ valid, reason? }`). -/
structure ValidationResult where
  valid : Bool
  reason : Option String
deriving DecidableEq

/-- Workflow validator of `kanban-board.tsx` (`validateMove`): moving from
"assigned" back to "new" is prohibited, everything else is allowed. -/
def validateMove (fromStatus toStatus : String) : ValidationResult :=
  if fromStatus == "assigned" && toStatus == "new" then
    { valid := false, reason := some ("Cannot move from Assigned back to New") }
  else
    { valid := true, reason := none }

/-- Predicate of the board filter in `kanban-board.tsx` (`filteredOpportunities`):
only active statuses are shown, and the optional urgency / skill / assigned-team
filters are applied when they are set to a non-empty value other than "all". -/
def boardFilterPred (filters : Option Filters) (opp : Opportunity) : Bool :=
  if !(["new", "assigned", "done"].contains opp.status) then
    false
  else
    let urgencyOk :=
      match filters.bind (fun f => f.urgency) with
      | some u => if u != "" && u != "all" then opp.urgency == jsToLower u else true
      | none => true
    let skillOk :=
      match filters.bind (fun f => f.skill) with
      | some s => if s != "" && s != "all" then opp.requiredSkillId == some s else true
      | none => true
    let teamOk :=
      match filters.bind (fun f => f.assignedTeam) with
      | some t => if t != "" && t != "all" then opp.assigneeId == some t else true
      | none => true
    urgencyOk && skillOk && teamOk

/-- Filtered list of opportunities shown on the Kanban board. -/
def filteredOpportunities (opportunities : List Opportunity)
    (filters : Option Filters) : List Opportunity :=
  opportunities.filter (boardFilterPred filters)

/-- Claim C1: `validateMove` rejects a move exactly when it goes from
"assigned" to "new" (and then carries a reason); every other pair of statuses
is accepted. -/
theorem validateMove_rejects_exactly_assigned_to_new
    (fromStatus toStatus : String) :
    ((validateMove fromStatus toStatus).valid = false ↔
      (fromStatus = "assigned" ∧ toStatus = "new")) ∧
    ((validateMove fromStatus toStatus).valid = false →
      (validateMove fromStatus toStatus).reason.isSome = true) := by
  unfold validateMove
  by_cases h : fromStatus == "assigned" && toStatus == "new"
  · simp only [h, if_pos]
    simp only [Bool.and_eq_true, beq_iff_eq] at h
    simp [h]
  · simp only [h, if_neg, Bool.not_eq_true]
    constructor
    · constructor
      · intro hfalse
        simp at hfalse
      · intro ⟨h1, h2⟩
        subst h1; subst h2
        simp at h
    · intro hfalse
      simp at hfalse

/-- Witness for C1 at a concrete rejected pair and a concrete accepted pair. -/
theorem validateMove_rejects_exactly_assigned_to_new_witness :
    (validateMove ("assigned") "new").valid = false ∧
    (validateMove ("assigned") "new").reason.isSome = true ∧
    (validateMove ("done") "assigned").valid = true := by
  refine ⟨?_, ?_, ?_⟩
  · exact (validateMove_rejects_exactly_assigned_to_new ("assigned") "new").1.mpr
      ⟨rfl, rfl⟩
  · exact (validateMove_rejects_exactly_assigned_to_new ("assigned") "new").2
      ((validateMove_rejects_exactly_assigned_to_new ("assigned") "new").1.mpr
        ⟨rfl, rfl⟩)
  · have h := (validateMove_rejects_exactly_assigned_to_new ("done") "assigned").1
    by_cases hv : (validateMove ("done") "assigned").valid = false
    · exact absurd (h.mp hv).2 (by decide)
    · simpa using hv

/-- Claim C5: every opportunity in the board's filtered list has status "new",
"assigned" or "done"; in particular no cancelled or archived opportunity
appears, for every opportunity list and every filter setting. -/
theorem filteredOpportunities_excludes_terminal
    (opportunities : List Opportunity) (filters : Option Filters)
    (opp : Opportunity) (hmem : opp ∈ filteredOpportunities opportunities filters) :
    (opp.status = "new" ∨ opp.status = "assigned" ∨ opp.status = "done") ∧
    opp.status ≠ "cancelled" ∧ opp.status ≠ "archived" := by
  have hpred : boardFilterPred filters opp = true :=
    List.of_mem_filter hmem
  unfold boardFilterPred at hpred
  by_cases h : (["new", "assigned", "done"].contains opp.status) = true
  · have hstat : opp.status = "new" ∨ opp.status = "assigned" ∨ opp.status = "done" := by
      simpa using h
    refine ⟨hstat, ?_, ?_⟩
    · rcases hstat with h1 | h1 | h1 <;> simp [h1]
    · rcases hstat with h1 | h1 | h1 <;> simp [h1]
  · exfalso
    simp only [Bool.not_eq_true] at h
    rw [h] at hpred
    simp at hpred

/-- Witness for C5 on a concrete board state with a cancelled opportunity. -/
theorem filteredOpportunities_excludes_terminal_witness :
    ({ id := "o1", status := "new", urgency := "high", requiredSkillId := none,
       requiredSkillIds := [], assigneeId := none, assignee := "" } : Opportunity).status = "new" ∨
    ({ id := "o1", status := "new", urgency := "high", requiredSkillId := none,
       requiredSkillIds := [], assigneeId := none, assignee := "" } : Opportunity).status = "assigned" ∨
    ({ id := "o1", status := "new", urgency := "high", requiredSkillId := none,
       requiredSkillIds := [], assigneeId := none, assignee := "" } : Opportunity).status = "done" :=
  (filteredOpportunities_excludes_terminal
    [{ id := "o1", status := "new", urgency := "high", requiredSkillId := none,
       requiredSkillIds := [], assigneeId := none, assignee := "" },
     { id := "o2", status := "cancelled", urgency := "low", requiredSkillId := none,
       requiredSkillIds := [], assigneeId := none, assignee := "" }]
    none
    { id := "o1", status := "new", urgency := "high", requiredSkillId := none,
      requiredSkillIds := [], assigneeId := none, assignee := "" }
    (by decide)).1

/-- Status computation of `getOpportunities` in `services/opportunities.ts`
(lines 160-168): the fetched status is lowercased with the default "new"
(JavaScript `||`, so an empty string also falls back to "new"), and a row that
has an assigned user while its status is "new" is cleaned up to "assigned". -/
def getOpportunitiesStatus (assigned_user_id : Option String)
    (status : Option String) : String :=
  let lowered :=
    match status with
    | some s => if jsToLower s == "" then ("new") else jsToLower s
    | none => ("new")
  let hasAssignedUser := assigned_user_id.isSome
  if hasAssignedUser && lowered == "new" then ("assigned") else lowered

/-- Update payload written by `updateOpportunityAssignment`. -/
structure AssignmentUpdate where
  assigned_user_id : String
  status : String
deriving DecidableEq

/-- Argument validation and update payload of `updateOpportunityAssignment`
in `services/opportunities.ts` (lines 342-371): after checking both ids, it
writes the assigned user id together with status "assigned". -/
def updateOpportunityAssignmentPayload (id : String) (assignedUserId : String) :
    Except String AssignmentUpdate :=
  if id == "" || jsTrim id == "" then
    .error ("Opportunity ID is required")
  else if assignedUserId == "" || jsTrim assignedUserId == "" then
    .error ("Assigned user ID is required")
  else
    .ok { assigned_user_id := assignedUserId, status := "assigned" }

/-- Claim C4: a fetched row with an assigned user and status "new" is mapped
to status "assigned" by `getOpportunities`, and `updateOpportunityAssignment`
always writes status "assigned" together with the assigned user id. -/
theorem assignment_implies_status_assigned :
    (∀ (uid : String) (status : Option String), status = some ("new") →
      getOpportunitiesStatus (some uid) status = "assigned") ∧
    (∀ (id assignedUserId : String) (payload : AssignmentUpdate),
      updateOpportunityAssignmentPayload id assignedUserId = .ok payload →
      payload.status = "assigned" ∧ payload.assigned_user_id = assignedUserId) := by
  constructor
  · intro uid status h
    subst h
    rfl
  · intro id assignedUserId payload h
    unfold updateOpportunityAssignmentPayload at h
    split at h
    · exact absurd h (by simp)
    · split at h
      · exact absurd h (by simp)
      · injection h with h1
        subst h1
        exact ⟨rfl, rfl⟩

/-- Witness for C4 at a concrete row and a concrete assignment call. -/
theorem assignment_implies_status_assigned_witness :
    getOpportunitiesStatus (some ("user-1")) (some ("new")) = "assigned" ∧
    ({ assigned_user_id := "user-1", status := "assigned" } : AssignmentUpdate).status
      = "assigned" := by
  constructor
  · exact assignment_implies_status_assigned.1 ("user-1") (some ("new")) rfl
  · exact (assignment_implies_status_assigned.2 ("opp-1") "user-1"
      { assigned_user_id := "user-1", status := "assigned" } rfl).1

/-- Final local state of `handleUpdateStatus` in `kanban-board.tsx`: the
optimistic update replaces the status immediately; on success the record from
the database replaces the optimistic one; when the persistence call returns
null or throws, the saved previous list is restored. -/
def handleUpdateStatusFinal (opportunities : List Opportunity) (id : String)
    (newStatus : String) (updateResult : Except Unit (Option Opportunity)) :
    List Opportunity :=
  let previousOpportunities := opportunities
  let optimistic := opportunities.map (fun opp =>
    if opp.id == id then { opp with status := newStatus } else opp)
  match updateResult with
  | .ok (some updatedOpportunity) =>
      optimistic.map (fun opp => if opp.id == id then updatedOpportunity else opp)
  | .ok none => previousOpportunities
  | .error _ => previousOpportunities

/-- Final local state of `executeMove` in `kanban-board.tsx`: identical to
`handleUpdateStatus` except that it first looks the opportunity up and does
nothing when it is absent. -/
def executeMoveFinal (opportunities : List Opportunity) (opportunityId : String)
    (newStatus : String) (updateResult : Except Unit (Option Opportunity)) :
    List Opportunity :=
  match opportunities.find? (fun opp => opp.id == opportunityId) with
  | none => opportunities
  | some _ =>
    let previousOpportunities := opportunities
    let optimistic := opportunities.map (fun opp =>
      if opp.id == opportunityId then { opp with status := newStatus } else opp)
    match updateResult with
    | .ok (some updatedOpportunity) =>
        optimistic.map (fun opp =>
          if opp.id == opportunityId then updatedOpportunity else opp)
    | .ok none => previousOpportunities
    | .error _ => previousOpportunities

/-- Claim C6: when the persistence call throws or returns null, both board
status-change operations leave the local opportunities state exactly as it was
before the optimistic update. -/
theorem status_update_rollback_on_failure
    (opportunities : List Opportunity) (id newStatus : String)
    (updateResult : Except Unit (Option Opportunity))
    (hfail : updateResult = .error () ∨ updateResult = .ok none) :
    handleUpdateStatusFinal opportunities id newStatus updateResult = opportunities ∧
    executeMoveFinal opportunities id newStatus updateResult = opportunities := by
  have hexec : ∀ r, (r = Except.error () ∨ r = Except.ok none) →
      executeMoveFinal opportunities id newStatus r = opportunities := by
    intro r hr
    unfold executeMoveFinal
    cases hfind : opportunities.find? (fun opp => opp.id == id) with
    | none => rfl
    | some o => rcases hr with h | h <;> subst h <;> rfl
  rcases hfail with h | h <;> subst h
  · exact ⟨rfl, hexec _ (Or.inl rfl)⟩
  · exact ⟨rfl, hexec _ (Or.inr rfl)⟩

/-- Witness for C6 on a concrete one-element board and a throwing call. -/
theorem status_update_rollback_on_failure_witness :
    handleUpdateStatusFinal
      [{ id := "o1", status := "new", urgency := "high", requiredSkillId := none,
         requiredSkillIds := [], assigneeId := none, assignee := "" }]
      "o1" "done" (.error ()) =
      [{ id := "o1", status := "new", urgency := "high", requiredSkillId := none,
         requiredSkillIds := [], assigneeId := none, assignee := "" }] ∧
    executeMoveFinal
      [{ id := "o1", status := "new", urgency := "high", requiredSkillId := none,
         requiredSkillIds := [], assigneeId := none, assignee := "" }]
      "o1" "done" (.error ()) =
      [{ id := "o1", status := "new", urgency := "high", requiredSkillId := none,
         requiredSkillIds := [], assigneeId := none, assignee := "" }] :=
  status_update_rollback_on_failure _ ("o1") "done" (.error ()) (Or.inl rfl)

/-- Droppable location of the drag-and-drop library (`droppableId`, `index`). -/
structure DragLocation where
  droppableId : String
  index : Nat
deriving DecidableEq

/-- Drag result delivered to `handleDragEnd` (`destination`, `source`,
`draggableId`). -/
structure DropResult where
  destination : Option DragLocation
  source : DragLocation
  draggableId : String
deriving DecidableEq

/-- Pending move recorded before a confirmation or assignment step. -/
structure PendingMove where
  opportunityId : String
  newStatus : String
deriving DecidableEq

/-- Effect chosen by `handleDragEnd`: do nothing, open the assignment modal,
open the done-confirmation dialog, or persist the move directly. -/
inductive DragAction where
  | noAction
  | openAssignModal (opportunity : Opportunity) (pendingMove : PendingMove)
  | openDoneConfirmation (pendingMove : PendingMove)
  | directMove (opportunityId : String) (newStatus : String)
deriving DecidableEq

/-- Column-id to status mapping of `handleDragEnd` (`statusMap`). -/
def statusMap (droppableId : String) : Option String :=
  if droppableId == "new" then some ("new")
  else if droppableId == "assigned" then some ("assigned")
  else if droppableId == "done" then some ("done")
  else none

/-- Drag handler of `kanban-board.tsx` (`handleDragEnd`, lines 369-438): after
the early returns and workflow validation, a move from "new" to "assigned"
opens the assignment modal, a move to "done" opens the confirmation dialog,
and only the remaining valid moves call `executeMove` directly. -/
def handleDragEnd (result : DropResult) (opportunities : List Opportunity) :
    DragAction :=
  match result.destination with
  | none => .noAction
  | some destination =>
    if destination.droppableId == result.source.droppableId &&
        destination.index == result.source.index then
      .noAction
    else
      match statusMap destination.droppableId, statusMap result.source.droppableId with
      | some newStatus, some oldStatus =>
        match opportunities.find? (fun opp => opp.id == result.draggableId) with
        | none => .noAction
        | some opportunity =>
          if opportunity.status == newStatus then
            .noAction
          else if !(validateMove oldStatus newStatus).valid then
            .noAction
          else if oldStatus == "new" && newStatus == "assigned" then
            .openAssignModal opportunity
              { opportunityId := result.draggableId, newStatus := newStatus }
          else if newStatus == "done" then
            .openDoneConfirmation
              { opportunityId := result.draggableId, newStatus := newStatus }
          else
            .directMove result.draggableId newStatus
      | _, _ => .noAction

/-- Confirmation handler of `kanban-board.tsx` (`handleConfirmDone`): it
executes the recorded pending move, and does nothing without one. -/
def handleConfirmDone (pendingMove : Option PendingMove) :
    Option (String × String) :=
  match pendingMove with
  | none => none
  | some pm => some (pm.opportunityId, pm.newStatus)

/-- Claim C9: `handleDragEnd` never persists a move to "done" or a move from
"new" to "assigned" directly; a direct move is always workflow-valid; and the
database update for a pending move runs exactly when the user confirms, via
`handleConfirmDone`. -/
theorem dragEnd_gating (result : DropResult) (opportunities : List Opportunity) :
    (∀ oid st, handleDragEnd result opportunities = .directMove oid st →
      st ≠ "done" ∧
      (statusMap result.source.droppableId = some ("new") → st ≠ "assigned") ∧
      ∃ old, statusMap result.source.droppableId = some old ∧
        (validateMove old st).valid = true) ∧
    handleConfirmDone none = none ∧
    (∀ pm, handleConfirmDone (some pm) = some (pm.opportunityId, pm.newStatus)) := by
  refine ⟨?_, rfl, fun pm => rfl⟩
  intro oid st h
  unfold handleDragEnd at h
  cases hdest : result.destination with
  | none => rw [hdest] at h; cases h
  | some destination =>
    rw [hdest] at h
    dsimp only at h
    split at h
    · cases h
    · cases hnew : statusMap destination.droppableId with
      | none => rw [hnew] at h; cases h
      | some newStatus =>
        cases hold : statusMap result.source.droppableId with
        | none => rw [hnew, hold] at h; cases h
        | some oldStatus =>
          rw [hnew, hold] at h
          dsimp only at h
          cases hfind : opportunities.find? (fun opp => opp.id == result.draggableId) with
          | none => rw [hfind] at h; cases h
          | some opportunity =>
            rw [hfind] at h
            dsimp only at h
            split at h
            · cases h
            · split at h
              · cases h
              · split at h
                · cases h
                · split at h
                  · cases h
                  · rename_i hsame hvalid hassign hdone
                    injection h with h1 h2
                    subst h1; subst h2
                    refine ⟨?_, ?_, oldStatus, rfl, ?_⟩
                    · intro hst
                      subst hst
                      simp at hdone
                    · intro hsrc hst
                      injection hsrc with hsrc
                      subst hsrc; subst hst
                      simp at hassign
                    · simp only [Bool.not_eq_true', Bool.not_eq_false] at hvalid
                      exact hvalid

/-- Witness for C9: a concrete drag from "done" to "assigned" reaches the
direct-move branch, and confirming a recorded pending move executes it. -/
theorem dragEnd_gating_witness :
    ("assigned" : String) ≠ "done" ∧
    handleConfirmDone (some { opportunityId := "o1", newStatus := "done" }) =
      some ("o1", "done") := by
  constructor
  · exact ((dragEnd_gating
      { destination := some { droppableId := "assigned", index := 0 },
        source := { droppableId := "done", index := 0 }, draggableId := "o1" }
      [{ id := "o1", status := "done", urgency := "high", requiredSkillId := none,
         requiredSkillIds := [], assigneeId := none, assignee := "" }]).1
      "o1" "assigned" (by decide)).1
  · exact (dragEnd_gating
      { destination := none,
        source := { droppableId := "done", index := 0 }, draggableId := "o1" }
      []).2.2 { opportunityId := "o1", newStatus := "done" }

/-- Skill record (`Skills` table row: id and name). -/
structure Skill where
  id : String
  name : String
deriving DecidableEq

/-- Check that the second character list is a prefix of the first. -/
def startsWithChars : List Char → List Char → Bool
  | _, [] => true
  | [], _ :: _ => false
  | c :: cs, d :: ds => c == d && startsWithChars cs ds

/-- Check that the second character list occurs contiguously in the first. -/
def containsChars : List Char → List Char → Bool
  | [], sub => sub.isEmpty
  | c :: cs, sub => startsWithChars (c :: cs) sub || containsChars cs sub

/-- Model of JavaScript `String.prototype.includes`. -/
def strIncludes (s sub : String) : Bool :=
  containsChars s.data sub.data

/-- Skill-name matching of the AI intake flow in `new-opportunity-modal.tsx`
(lines 295-318): first an exact case-insensitive match against the database
skills, then the first partial (substring either way) match, otherwise the
AI-suggested name unchanged. -/
def matchAISkill (skills : List Skill) (aiSkill : String) : String :=
  match skills.find? (fun skill => jsToLower skill.name == jsToLower aiSkill) with
  | some exactMatch => exactMatch.name
  | none =>
    match skills.find? (fun skill =>
        strIncludes (jsToLower skill.name) (jsToLower aiSkill) ||
        strIncludes (jsToLower aiSkill) (jsToLower skill.name)) with
    | some partialHit => partialHit.name
    | none => aiSkill

/-- Names selected for the whole AI suggestion list (the `forEach` push loop). -/
def matchedSkillNames (skills : List Skill) (aiSkills : List String) : List String :=
  aiSkills.map (matchAISkill skills)

/-- Priority-to-urgency mapping of the AI intake flow (lines 277-283):
the record maps "Low", "Medium" and "High" to themselves and every other
priority value falls back to "Medium". -/
def priorityToUrgency (priority : String) : String :=
  if priority == "Low" then ("Low")
  else if priority == "Medium" then ("Medium")
  else if priority == "High" then ("High")
  else ("Medium")

/-- Decomposition of a successful `List.find?`: the found element is the first
one satisfying the predicate. -/
theorem find_first_decomp {α : Type} (p : α → Bool) (l : List α) (x : α)
    (h : l.find? p = some x) :
    ∃ l₁ l₂, l = l₁ ++ x :: l₂ ∧ p x = true ∧ ∀ y ∈ l₁, p y = false := by
  induction l with
  | nil => cases h
  | cons a as ih =>
    by_cases hp : p a = true
    · rw [List.find?_cons_of_pos _ hp] at h
      injection h with h
      subst h
      exact ⟨[], as, rfl, hp, by simp⟩
    · rw [List.find?_cons_of_neg _ (by simpa using hp)] at h
      obtain ⟨l₁, l₂, heq, hpx, hall⟩ := ih h
      refine ⟨a :: l₁, l₂, by rw [heq]; rfl, hpx, ?_⟩
      intro y hy
      rcases List.mem_cons.mp hy with hya | hyl
      · subst hya
        simpa using hp
      · exact hall y hyl

/-- Claim C7: the intake flow maps each AI-suggested skill name to the first
exactly (case-insensitively) matching database skill, else to the first
database skill related by substring containment either way, else keeps the
raw suggestion; and the AI priorities "Low"/"Medium"/"High" map to themselves
while any other priority falls back to "Medium". -/
theorem ai_skill_and_priority_mapping (skills : List Skill) (aiSkill : String) :
    ((∃ s ∈ skills, jsToLower s.name = jsToLower aiSkill) →
      ∃ l₁ s l₂, skills = l₁ ++ s :: l₂ ∧ jsToLower s.name = jsToLower aiSkill ∧
        (∀ t ∈ l₁, jsToLower t.name ≠ jsToLower aiSkill) ∧
        matchAISkill skills aiSkill = s.name) ∧
    ((∀ s ∈ skills, jsToLower s.name ≠ jsToLower aiSkill) →
      (∃ s ∈ skills, strIncludes (jsToLower s.name) (jsToLower aiSkill) = true ∨
          strIncludes (jsToLower aiSkill) (jsToLower s.name) = true) →
      ∃ l₁ s l₂, skills = l₁ ++ s :: l₂ ∧
        (strIncludes (jsToLower s.name) (jsToLower aiSkill) = true ∨
          strIncludes (jsToLower aiSkill) (jsToLower s.name) = true) ∧
        (∀ t ∈ l₁, strIncludes (jsToLower t.name) (jsToLower aiSkill) = false ∧
          strIncludes (jsToLower aiSkill) (jsToLower t.name) = false) ∧
        matchAISkill skills aiSkill = s.name) ∧
    ((∀ s ∈ skills, jsToLower s.name ≠ jsToLower aiSkill ∧
        strIncludes (jsToLower s.name) (jsToLower aiSkill) = false ∧
        strIncludes (jsToLower aiSkill) (jsToLower s.name) = false) →
      matchAISkill skills aiSkill = aiSkill) ∧
    (priorityToUrgency ("Low") = "Low" ∧ priorityToUrgency ("Medium") = "Medium" ∧
      priorityToUrgency ("High") = "High") ∧
    (∀ p, p ∉ (["Low", "Medium", "High"] : List String) →
      priorityToUrgency p = "Medium") := by
  refine ⟨?_, ?_, ?_, ⟨rfl, rfl, rfl⟩, ?_⟩
  · intro ⟨s, hmem, heq⟩
    have hsome : (skills.find? (fun skill =>
        jsToLower skill.name == jsToLower aiSkill)).isSome := by
      rw [List.find?_isSome]
      exact ⟨s, hmem, by simpa using heq⟩
    obtain ⟨x, hx⟩ := Option.isSome_iff_exists.mp hsome
    obtain ⟨l₁, l₂, hsplit, hpx, hfirst⟩ := find_first_decomp _ _ _ hx
    refine ⟨l₁, x, l₂, hsplit, by simpa using hpx, ?_, ?_⟩
    · intro t ht
      simpa using hfirst t ht
    · unfold matchAISkill
      rw [hx]
  · intro hnoexact ⟨s, hmem, hsub⟩
    have hnone : skills.find? (fun skill =>
        jsToLower skill.name == jsToLower aiSkill) = none := by
      rw [List.find?_eq_none]
      intro t ht
      simpa using hnoexact t ht
    have hsome : (skills.find? (fun skill =>
        strIncludes (jsToLower skill.name) (jsToLower aiSkill) ||
        strIncludes (jsToLower aiSkill) (jsToLower skill.name))).isSome := by
      rw [List.find?_isSome]
      refine ⟨s, hmem, ?_⟩
      rcases hsub with h | h <;> simp [h]
    obtain ⟨x, hx⟩ := Option.isSome_iff_exists.mp hsome
    obtain ⟨l₁, l₂, hsplit, hpx, hfirst⟩ := find_first_decomp _ _ _ hx
    refine ⟨l₁, x, l₂, hsplit, by simpa using hpx, ?_, ?_⟩
    · intro t ht
      have := hfirst t ht
      constructor
      · exact (Bool.or_eq_false_iff.mp this).1
      · exact (Bool.or_eq_false_iff.mp this).2
    · unfold matchAISkill
      rw [hnone, hx]
  · intro hnone
    have h1 : skills.find? (fun skill =>
        jsToLower skill.name == jsToLower aiSkill) = none := by
      rw [List.find?_eq_none]
      intro t ht
      simpa using (hnone t ht).1
    have h2 : skills.find? (fun skill =>
        strIncludes (jsToLower skill.name) (jsToLower aiSkill) ||
        strIncludes (jsToLower aiSkill) (jsToLower skill.name)) = none := by
      rw [List.find?_eq_none]
      intro t ht
      simp [(hnone t ht).2.1, (hnone t ht).2.2]
    unfold matchAISkill
    rw [h1, h2]
  · intro p hp
    unfold priorityToUrgency
    by_cases h1 : p == "Low"
    · exact absurd (by simpa using h1) (by simp at hp; exact fun hh => hp.1 hh)
    · by_cases h2 : p == "Medium"
      · exact absurd (by simpa using h2) (by simp at hp; exact fun hh => hp.2.1 hh)
      · by_cases h3 : p == "High"
        · exact absurd (by simpa using h3) (by simp at hp; exact fun hh => hp.2.2 hh)
        · simp [h1, h2, h3]

/-- Witness for C7: an exact case-insensitive database hit and an unknown
priority value. -/
theorem ai_skill_and_priority_mapping_witness :
    (∃ l₁ s l₂, ([⟨"s1", "React"⟩] : List Skill) = l₁ ++ s :: l₂ ∧
      jsToLower s.name = jsToLower ("react") ∧
      (∀ t ∈ l₁, jsToLower t.name ≠ jsToLower ("react")) ∧
      matchAISkill [⟨"s1", "React"⟩] "react" = s.name) ∧
    priorityToUrgency ("Urgent") = "Medium" :=
  ⟨(ai_skill_and_priority_mapping [⟨"s1", "React"⟩] "react").1
      ⟨⟨"s1", "React"⟩, by decide, by decide⟩,
    (ai_skill_and_priority_mapping [⟨"s1", "React"⟩] "react").2.2.2.2 ("Urgent")
      (by decide)⟩

/-- Hexadecimal digit test for the service's UUID regular expression
(`[0-9a-f]` with the case-insensitive flag). -/
def isHexDigit (c : Char) : Bool :=
  decide ((48 ≤ c.toNat ∧ c.toNat ≤ 57) ∨ (97 ≤ c.toNat ∧ c.toNat ≤ 102) ∨
    (65 ≤ c.toNat ∧ c.toNat ≤ 70))

/-- Consume exactly `n` hexadecimal digits, returning the rest. -/
def hexRun : Nat → List Char → Option (List Char)
  | 0, cs => some cs
  | _ + 1, [] => none
  | n + 1, c :: cs => if isHexDigit c then hexRun n cs else none

/-- Check dash-separated hexadecimal groups of the given sizes, anchored at
both ends. -/
def uuidGroupsCheck : List Nat → List Char → Bool
  | [], cs => cs.isEmpty
  | n :: ns, cs =>
    match hexRun n cs with
    | none => false
    | some rest =>
      match ns with
      | [] => rest.isEmpty
      | _ :: _ =>
        match rest with
        | '-' :: rest2 => uuidGroupsCheck ns rest2
        | _ => false

/-- Model of the UUID regular expression used by `services/opportunities.ts`:
`^[0-9a-f]{8}-[0-9a-f]{4}-[0-9a-f]{4}-[0-9a-f]{4}-[0-9a-f]{12}$` with the
case-insensitive flag. -/
def isUuid (s : String) : Bool :=
  uuidGroupsCheck [8, 4, 4, 4, 12] s.data

/-- Outcome of the `Skills` table lookup for the skill named "Pending"
(`.eq('name','Pending').single()`): a row, the no-rows error `PGRST116`, or
any other error. -/
inductive PendingLookup where
  | found (skill : Skill)
  | notFound
  | failed (code : String)
deriving DecidableEq

/-- Skill-link phase of `createOpportunity` in `services/opportunities.ts`
(lines 714-835): provided skill ids must be UUIDs (otherwise the call throws);
with no provided skills the "Pending" skill is looked up and used when found,
and any lookup error is only logged; the links actually inserted are the
UUID-valid final skill ids. -/
def createOpportunitySkillLinks (skillIds : List String)
    (pendingLookup : PendingLookup) : Except String (List String) :=
  match skillIds.find? (fun skillId => !(isUuid skillId)) with
  | some _ => .error ("Invalid UUID format for skill_id")
  | none =>
    let finalSkillIds :=
      if skillIds.length == 0 then
        match pendingLookup with
        | .found pendingSkill => [pendingSkill.id]
        | _ => skillIds
      else skillIds
    if finalSkillIds.length > 0 then
      .ok (finalSkillIds.filter (fun skillId => isUuid skillId))
    else
      .ok []

/-- Skill-link phase of `updateOpportunityDetails` in
`services/opportunities.ts` (lines 487-535): when a skill-id list is provided
the existing links are replaced by it, and an explicitly empty list falls back
to the "Pending" skill when that skill exists; lookup and insert errors are
only logged, never thrown. -/
def updateOpportunityDetailsSkillLinks (skillIds : Option (List String))
    (pendingLookup : PendingLookup) : List String :=
  match skillIds with
  | none => []
  | some l =>
    if l.length > 0 then l
    else
      match pendingLookup with
      | .found pendingSkill => [pendingSkill.id]
      | _ => []

/-- Claim C10: with an empty skill-id list, both `createOpportunity` and
`updateOpportunityDetails` link the "Pending" skill when it exists in the
database, and still complete without error when it does not. -/
theorem empty_skills_pending_fallback :
    (∀ pendingSkill : Skill, isUuid pendingSkill.id = true →
      createOpportunitySkillLinks [] (.found pendingSkill) =
        .ok [pendingSkill.id]) ∧
    (createOpportunitySkillLinks [] .notFound = .ok [] ∧
      ∀ code, createOpportunitySkillLinks [] (.failed code) = .ok []) ∧
    (∀ pendingSkill : Skill,
      updateOpportunityDetailsSkillLinks (some []) (.found pendingSkill) =
        [pendingSkill.id]) ∧
    updateOpportunityDetailsSkillLinks (some []) .notFound = [] ∧
    (∀ code, updateOpportunityDetailsSkillLinks (some []) (.failed code) = []) := by
  refine ⟨?_, ⟨rfl, fun code => rfl⟩, fun p => rfl, rfl, fun code => rfl⟩
  intro pendingSkill h
  simp [createOpportunitySkillLinks, h]

/-- Witness for C10 at a concrete UUID-shaped pending skill. -/
theorem empty_skills_pending_fallback_witness :
    createOpportunitySkillLinks []
      (.found ⟨"123e4567-e89b-12d3-a456-426614174000", "Pending"⟩) =
      .ok ["123e4567-e89b-12d3-a456-426614174000"] :=
  empty_skills_pending_fallback.1
    ⟨"123e4567-e89b-12d3-a456-426614174000", "Pending"⟩ (by decide)

/-- Profile row fetched by `getTeamMembers` (`Profiles` table). -/
structure ProfileRow where
  id : String
  full_name : Option String
  email : Option String
  role : Option String
deriving DecidableEq

/-- Row of the `user_skills` join table with its joined skill. -/
structure UserSkillRow where
  user_id : String
  skill : Option Skill
deriving DecidableEq

/-- Opportunity row fetched for the member statistics
(`id, assigned_user_id, status`). -/
structure OppStatRow where
  id : String
  assigned_user_id : Option String
  status : String
deriving DecidableEq

/-- Team member record produced by `services/members.ts`. -/
structure TeamMember where
  id : String
  name : String
  email : String
  role : Option String
  skills : List String
  skillIds : List String
  activeOpportunities : Nat
  completedOpportunities : Nat
deriving DecidableEq

/-- JavaScript `x || d` on an optional string: `null`, `undefined` and the
empty string all fall back to the default. -/
def jsOrString (x : Option String) (d : String) : String :=
  match x with
  | some s => if s == "" then d else s
  | none => d

/-- Accumulation step of the `userSkills.forEach` loop in `getTeamMembers`:
rows with a joined skill and a truthy user id append the skill name and id to
that user's lists. -/
def skillMapsStep (maps : (String → List String) × (String → List String))
    (us : UserSkillRow) :
    (String → List String) × (String → List String) :=
  match us.skill with
  | some sk =>
    if us.user_id == "" then maps
    else
      (fun u => if u == us.user_id then maps.1 u ++ [sk.name] else maps.1 u,
       fun u => if u == us.user_id then maps.2 u ++ [sk.id] else maps.2 u)
  | none => maps

/-- Skill name and id maps built by `getTeamMembers`. -/
def buildSkillMaps (userSkills : List UserSkillRow) :
    (String → List String) × (String → List String) :=
  userSkills.foldl skillMapsStep (fun _ => [], fun _ => [])

/-- Accumulation step of the `opportunities.forEach` loop in `getTeamMembers`:
rows with a truthy assigned user bump that user's active count for status
"assigned"/"Assigned" and the completed count for "done"/"Done". -/
def countStatusStep (maps : (String → Nat) × (String → Nat)) (opp : OppStatRow) :
    (String → Nat) × (String → Nat) :=
  match opp.assigned_user_id with
  | some uid =>
    if uid == "" then maps
    else if opp.status == "assigned" || opp.status == "Assigned" then
      (fun u => if u == uid then maps.1 u + 1 else maps.1 u, maps.2)
    else if opp.status == "done" || opp.status == "Done" then
      (maps.1, fun u => if u == uid then maps.2 u + 1 else maps.2 u)
    else maps
  | none => maps

/-- Active and completed opportunity counts per user id, computed from the
fetched opportunity rows. -/
def countStatusMaps (opportunities : List OppStatRow) :
    (String → Nat) × (String → Nat) :=
  opportunities.foldl countStatusStep (fun _ => 0, fun _ => 0)

/-- Transformation of `getTeamMembers` in `services/members.ts`: each profile
becomes a team member whose skills come from the `user_skills` maps and whose
opportunity counts come from the fetched opportunity rows. -/
def getTeamMembers (profiles : List ProfileRow) (userSkills : List UserSkillRow)
    (opportunities : List OppStatRow) : List TeamMember :=
  let maps := buildSkillMaps userSkills
  let counts := countStatusMaps opportunities
  profiles.map (fun profile =>
    { id := profile.id
      name := jsOrString profile.full_name ("Unknown")
      email := jsOrString profile.email ("")
      role := match profile.role with
              | some r => if r == "" then none else some r
              | none => none
      skills := maps.1 profile.id
      skillIds := maps.2 profile.id
      activeOpportunities := counts.1 profile.id
      completedOpportunities := counts.2 profile.id })

/-- One step of the status-count fold bumps the count at `uid` exactly when
the row matches the corresponding counting predicate. -/
theorem countStatusStep_at (acc : (String → Nat) × (String → Nat))
    (o : OppStatRow) (uid : String) (huid : uid ≠ "") :
    (countStatusStep acc o).1 uid = acc.1 uid +
      (if (o.assigned_user_id == some uid &&
          (o.status == "assigned" || o.status == "Assigned")) = true then 1 else 0) ∧
    (countStatusStep acc o).2 uid = acc.2 uid +
      (if (o.assigned_user_id == some uid &&
          (o.status == "done" || o.status == "Done")) = true then 1 else 0) := by
  have hopt : ∀ a b : String, (some a == some b) = (a == b) := fun a b => rfl
  have hexcl : ∀ s : String, (s == "assigned" || s == "Assigned") = true →
      (s == "done" || s == "Done") = false := by
    intro s hs
    simp only [Bool.or_eq_true, beq_iff_eq] at hs
    rcases hs with h | h <;> subst h <;> decide
  unfold countStatusStep
  cases hass : o.assigned_user_id with
  | none => simp
  | some u =>
    by_cases hu : u = ""
    · subst hu
      have hne : (("" : String) == uid) = false := by
        simp only [beq_eq_false_iff_ne, ne_eq]
        exact fun hcontra => huid hcontra.symm
      simp [hopt, hne]
    · have hu' : (u == "") = false := by
        simp only [beq_eq_false_iff_ne, ne_eq]
        exact hu
      by_cases hA : (o.status == "assigned" || o.status == "Assigned") = true
      · have hD := hexcl o.status hA
        by_cases he : u = uid
        · subst he
          simp [hopt, hu', hA, hD]
        · have h1 : (uid == u) = false := by
            simp only [beq_eq_false_iff_ne, ne_eq]
            exact fun hcontra => he hcontra.symm
          have h2 : (u == uid) = false := by
            simp only [beq_eq_false_iff_ne, ne_eq]
            exact he
          have he' : ¬ uid = u := fun hcontra => he hcontra.symm
          simp [hopt, hu', hA, hD, h1, h2, he, he']
      · have hA' : (o.status == "assigned" || o.status == "Assigned") = false := by
          simpa using hA
        by_cases hD : (o.status == "done" || o.status == "Done") = true
        · by_cases he : u = uid
          · subst he
            simp [hopt, hu', hA', hD]
          · have h1 : (uid == u) = false := by
              simp only [beq_eq_false_iff_ne, ne_eq]
              exact fun hcontra => he hcontra.symm
            have h2 : (u == uid) = false := by
              simp only [beq_eq_false_iff_ne, ne_eq]
              exact he
            have he' : ¬ uid = u := fun hcontra => he hcontra.symm
            simp [hopt, hu', hA', hD, h1, h2, he, he']
        · have hD' : (o.status == "done" || o.status == "Done") = false := by
            simpa using hD
          simp [hopt, hu', hA', hD']

/-- The status-count fold counts exactly the rows matching the predicates,
on top of whatever the accumulator already holds. -/
theorem countStatusFold (uid : String) (huid : uid ≠ "")
    (l : List OppStatRow) :
    ∀ acc : (String → Nat) × (String → Nat),
      (l.foldl countStatusStep acc).1 uid = acc.1 uid +
        l.countP (fun o => o.assigned_user_id == some uid &&
          (o.status == "assigned" || o.status == "Assigned")) ∧
      (l.foldl countStatusStep acc).2 uid = acc.2 uid +
        l.countP (fun o => o.assigned_user_id == some uid &&
          (o.status == "done" || o.status == "Done")) := by
  induction l with
  | nil =>
    intro acc
    simp
  | cons o os ih =>
    intro acc
    rw [List.foldl_cons, List.countP_cons, List.countP_cons]
    obtain ⟨ih1, ih2⟩ := ih (countStatusStep acc o)
    obtain ⟨hs1, hs2⟩ := countStatusStep_at acc o uid huid
    rw [ih1, ih2, hs1, hs2]
    constructor <;> omega

/-- Claim C8: for every member returned by `getTeamMembers` (profile ids are
non-empty), `activeOpportunities` is the number of fetched opportunity rows
assigned to that member with status "assigned"/"Assigned", and
`completedOpportunities` the number with status "done"/"Done" — both computed
from the query results. -/
theorem getTeamMembers_counts_computed
    (profiles : List ProfileRow) (userSkills : List UserSkillRow)
    (opportunities : List OppStatRow) (member : TeamMember)
    (hmem : member ∈ getTeamMembers profiles userSkills opportunities)
    (hid : member.id ≠ "") :
    member.activeOpportunities = opportunities.countP (fun o =>
      o.assigned_user_id == some member.id &&
      (o.status == "assigned" || o.status == "Assigned")) ∧
    member.completedOpportunities = opportunities.countP (fun o =>
      o.assigned_user_id == some member.id &&
      (o.status == "done" || o.status == "Done")) := by
  unfold getTeamMembers at hmem
  simp only [List.mem_map] at hmem
  obtain ⟨profile, hp, heq⟩ := hmem
  subst heq
  dsimp only at hid ⊢
  have h := countStatusFold profile.id hid opportunities
    (fun _ => 0, fun _ => 0)
  unfold countStatusMaps
  simpa using h

/-- Witness for C8 on a concrete roster with one assigned and one done row. -/
theorem getTeamMembers_counts_computed_witness :
    (1 : Nat) = List.countP (fun o : OppStatRow =>
      o.assigned_user_id == some ("p1") &&
      (o.status == "assigned" || o.status == "Assigned"))
      ([⟨"o1", some ("p1"), "assigned"⟩, ⟨"o2", some ("p1"), "Done"⟩,
        ⟨"o3", none, "assigned"⟩] : List OppStatRow) ∧
    (1 : Nat) = List.countP (fun o : OppStatRow =>
      o.assigned_user_id == some ("p1") &&
      (o.status == "done" || o.status == "Done"))
      ([⟨"o1", some ("p1"), "assigned"⟩, ⟨"o2", some ("p1"), "Done"⟩,
        ⟨"o3", none, "assigned"⟩] : List OppStatRow) :=
  getTeamMembers_counts_computed
    [⟨"p1", some ("Ana"), some ("ana@example.com"), none⟩] []
    ([⟨"o1", some ("p1"), "assigned"⟩, ⟨"o2", some ("p1"), "Done"⟩,
      ⟨"o3", none, "assigned"⟩] : List OppStatRow)
    { id := "p1", name := "Ana", email := "ana@example.com", role := none,
      skills := [], skillIds := [], activeOpportunities := 1,
      completedOpportunities := 1 }
    (by decide) (by decide)

/-- Placeholder option name used by the recommendation modal. -/
def PENDING_OPTION : String := "Pending / No specific skill"

/-- The `requiredSkill` field of the modal's opportunity: a single name or an
array of names (`string | string[]`). -/
inductive SkillField where
  | one (s : String)
  | many (l : List String)
deriving DecidableEq

/-- Fields of the opportunity consumed by `team-recommendation-modal.tsx`. -/
structure ModalOpportunity where
  requiredSkill : SkillField
  requiredSkillIds : Option (List String)
deriving DecidableEq

/-- Required skill ids of the modal opportunity
(`opportunity.requiredSkillIds || []`). -/
def requiredSkillIdsOf (o : ModalOpportunity) : List String :=
  o.requiredSkillIds.getD []

/-- Check of `team-recommendation-modal.tsx` (lines 72-75) that only the
pending placeholder is selected, by name. -/
def hasOnlyPending : SkillField → Bool
  | .many l => l.length == 1 && l.head? == some PENDING_OPTION
  | .one s => s == PENDING_OPTION

/-- Match classification of a member against the required skills
('perfect' | 'partial' | 'none' in the source). -/
inductive MatchType where
  | perfectMatch
  | partialMatch
  | noMatch
deriving DecidableEq

/-- Member together with the computed match data (`MemberWithScore`). -/
structure MemberWithScore extends TeamMember where
  matchType : MatchType
  matchingSkillIds : List String
  matchingSkills : List String
deriving DecidableEq

/-- Matching skill names for display: `member.skills.filter((name, index) =>
matchingSkillIds.includes(member.skillIds[index]))`, where an out-of-range
index yields no match. -/
def matchingSkillsOf (skills skillIds matching : List String) : List String :=
  (skills.enum.filter (fun p =>
    match skillIds.get? p.1 with
    | some sid => matching.contains sid
    | none => false)).map (fun p => p.2)

/-- Scoring of one member in `team-recommendation-modal.tsx` (lines 86-113):
with only the pending placeholder or no required skill ids the member is
neutral; otherwise the member's skill ids are intersected with the required
ids and the member is classified perfect (all of them), partial (some) or
none. The source binds the intersection to a local constant; it is inlined
here. -/
def scoreMember (opportunity : ModalOpportunity) (member : TeamMember) :
    MemberWithScore :=
  if hasOnlyPending opportunity.requiredSkill ||
      (requiredSkillIdsOf opportunity).length == 0 then
    { toTeamMember := member, matchType := .noMatch,
      matchingSkillIds := [], matchingSkills := [] }
  else
    { toTeamMember := member,
      matchType :=
        if (member.skillIds.filter (fun skillId =>
              (requiredSkillIdsOf opportunity).contains skillId)).length ==
              (requiredSkillIdsOf opportunity).length &&
            decide (0 < (requiredSkillIdsOf opportunity).length) then
          .perfectMatch
        else if decide (0 < (member.skillIds.filter (fun skillId =>
            (requiredSkillIdsOf opportunity).contains skillId)).length) then
          .partialMatch
        else
          .noMatch,
      matchingSkillIds := member.skillIds.filter (fun skillId =>
        (requiredSkillIdsOf opportunity).contains skillId),
      matchingSkills := matchingSkillsOf member.skills member.skillIds
        (member.skillIds.filter (fun skillId =>
          (requiredSkillIdsOf opportunity).contains skillId)) }

/-- Scored member list of the modal (`membersWithScores`). -/
def membersWithScores (teamMembers : List TeamMember)
    (opportunity : ModalOpportunity) : List MemberWithScore :=
  teamMembers.map (scoreMember opportunity)

/-- Search filter of the modal (lines 116-125): an all-whitespace query keeps
everyone, otherwise the lowercased trimmed query must occur in the name, the
email or one of the skill names. -/
def filteredMembers (members : List MemberWithScore) (searchQuery : String) :
    List MemberWithScore :=
  members.filter (fun member =>
    if jsTrim searchQuery == "" then true
    else
      let query := jsTrim (jsToLower searchQuery)
      let nameMatch := strIncludes (jsToLower member.name) query
      let emailMatch := strIncludes (jsToLower member.email) query
      let skillsMatch := member.skills.any (fun skill =>
        strIncludes (jsToLower skill) query)
      nameMatch || emailMatch || skillsMatch)

/-- Numeric order of the match types (`{ perfect: 0, partial: 1, none: 2 }`). -/
def matchRank : MatchType → Nat
  | .perfectMatch => 0
  | .partialMatch => 1
  | .noMatch => 2

/-- Lexicographic three-way comparison of character lists, the model of
`String.prototype.localeCompare`. -/
def charListCompare : List Char → List Char → Int
  | [], [] => 0
  | [], _ :: _ => -1
  | _ :: _, [] => 1
  | c :: cs, d :: ds =>
    if c < d then -1 else if d < c then 1 else charListCompare cs ds

/-- Three-way string comparison (`a.localeCompare(b)`). -/
def strCompareInt (a b : String) : Int :=
  charListCompare a.data b.data

/-- Comparator `sortByMatchType` of the modal (lines 128-135): by match-type
rank first, alphabetically inside a rank. -/
def sortByMatchType (a b : MemberWithScore) : Int :=
  if matchRank a.matchType ≠ matchRank b.matchType then
    (matchRank a.matchType : Int) - (matchRank b.matchType : Int)
  else
    strCompareInt a.name b.name

/-- Sorted member list of the modal (lines 138-140): plain alphabetical sort
when no skills are required, otherwise `sortByMatchType`. -/
def sortedMembers (teamMembers : List TeamMember)
    (opportunity : ModalOpportunity) (searchQuery : String) :
    List MemberWithScore :=
  let fm := filteredMembers (membersWithScores teamMembers opportunity)
    searchQuery
  if hasOnlyPending opportunity.requiredSkill ||
      (requiredSkillIdsOf opportunity).length == 0 then
    fm.mergeSort (fun a b => decide (strCompareInt a.name b.name ≤ 0))
  else
    fm.mergeSort (fun a b => decide (sortByMatchType a b ≤ 0))

/-- For duplicate-free lists, the intersection filter has full length exactly
when every required element is present. -/
theorem filter_contains_length_eq_iff (l r : List String)
    (hl : l.Nodup) (hr : r.Nodup) :
    (l.filter (fun x => r.contains x)).length = r.length ↔ ∀ x ∈ r, x ∈ l := by
  have hmnodup : (l.filter (fun x => r.contains x)).Nodup := hl.filter _
  have hmsub : (l.filter (fun x => r.contains x)) ⊆ r := by
    intro x hx
    have hmem := List.mem_filter.mp hx
    simpa using hmem.2
  constructor
  · intro hlen
    have hsub : List.Subperm (l.filter (fun x => r.contains x)) r :=
      List.subperm_of_subset hmnodup hmsub
    have hperm : (l.filter (fun x => r.contains x)).Perm r :=
      hsub.perm_of_length_le (le_of_eq hlen.symm)
    intro x hxr
    have hxm : x ∈ l.filter (fun x => r.contains x) := hperm.mem_iff.mpr hxr
    exact (List.mem_filter.mp hxm).1
  · intro hsup
    have hrsub : r ⊆ (l.filter (fun x => r.contains x)) := by
      intro x hxr
      refine List.mem_filter.mpr ⟨hsup x hxr, ?_⟩
      simpa using hxr
    have h1 : List.Subperm (l.filter (fun x => r.contains x)) r :=
      List.subperm_of_subset hmnodup hmsub
    have h2 : List.Subperm r (l.filter (fun x => r.contains x)) :=
      List.subperm_of_subset hr hrsub
    exact le_antisymm h1.length_le h2.length_le

/-- The scored member keeps the underlying team member unchanged. -/
theorem scoreMember_toTeamMember (opportunity : ModalOpportunity)
    (member : TeamMember) :
    (scoreMember opportunity member).toTeamMember = member := by
  unfold scoreMember
  split
  · rfl
  · rfl

/-- With only the pending placeholder or no required skills, the score is
neutral. -/
theorem scoreMember_matchType_of_pending (opportunity : ModalOpportunity)
    (member : TeamMember)
    (hcond : (hasOnlyPending opportunity.requiredSkill ||
      (requiredSkillIdsOf opportunity).length == 0) = true) :
    (scoreMember opportunity member).matchType = MatchType.noMatch := by
  unfold scoreMember
  rw [if_pos hcond]

/-- With required skills present, the score is the three-way classification
over the id intersection. -/
theorem scoreMember_matchType_of_active (opportunity : ModalOpportunity)
    (member : TeamMember)
    (hcond : (hasOnlyPending opportunity.requiredSkill ||
      (requiredSkillIdsOf opportunity).length == 0) = false) :
    (scoreMember opportunity member).matchType =
      (if ((member.skillIds.filter (fun skillId =>
            (requiredSkillIdsOf opportunity).contains skillId)).length ==
            (requiredSkillIdsOf opportunity).length &&
          decide (0 < (requiredSkillIdsOf opportunity).length)) = true then
        MatchType.perfectMatch
      else if decide (0 < (member.skillIds.filter (fun skillId =>
          (requiredSkillIdsOf opportunity).contains skillId)).length) = true then
        MatchType.partialMatch
      else MatchType.noMatch) := by
  unfold scoreMember
  rw [if_neg (by simp [hcond])]

/-- Claim C2: in the recommendation scoring, for a member with duplicate-free
skill ids and a duplicate-free required-skill-id set, the member is perfect
iff it has all required ids, partial iff it has some but not all, and none iff
it has none; with only the pending placeholder or an empty required set every
member is classified none. -/
theorem membersWithScores_classification
    (teamMembers : List TeamMember) (opportunity : ModalOpportunity)
    (w : MemberWithScore) (hw : w ∈ membersWithScores teamMembers opportunity)
    (hnodupMember : w.skillIds.Nodup)
    (hnodupReq : (requiredSkillIdsOf opportunity).Nodup) :
    ((hasOnlyPending opportunity.requiredSkill = true ∨
        requiredSkillIdsOf opportunity = []) → w.matchType = .noMatch) ∧
    (hasOnlyPending opportunity.requiredSkill = false →
      requiredSkillIdsOf opportunity ≠ [] →
      ((w.matchType = .perfectMatch ↔
          ∀ r ∈ requiredSkillIdsOf opportunity, r ∈ w.skillIds) ∧
       (w.matchType = .partialMatch ↔
          ((∃ r ∈ requiredSkillIdsOf opportunity, r ∈ w.skillIds) ∧
            ¬ ∀ r ∈ requiredSkillIdsOf opportunity, r ∈ w.skillIds)) ∧
       (w.matchType = .noMatch ↔
          ∀ r ∈ requiredSkillIdsOf opportunity, r ∉ w.skillIds))) := by
  unfold membersWithScores at hw
  rw [List.mem_map] at hw
  obtain ⟨member, hmem, heq⟩ := hw
  subst heq
  have hskills : (scoreMember opportunity member).skillIds = member.skillIds := by
    rw [scoreMember_toTeamMember]
  rw [hskills] at hnodupMember
  rw [hskills]
  constructor
  · intro hdisj
    apply scoreMember_matchType_of_pending
    rcases hdisj with h | h
    · simp [h]
    · simp [h]
  · intro hpend hrne
    have hcond : (hasOnlyPending opportunity.requiredSkill ||
        (requiredSkillIdsOf opportunity).length == 0) = false := by
      simp only [Bool.or_eq_false_iff]
      refine ⟨hpend, ?_⟩
      simpa using fun h => hrne (List.length_eq_zero.mp h)
    have hrpos : 0 < (requiredSkillIdsOf opportunity).length :=
      List.length_pos.mpr hrne
    have hmt := scoreMember_matchType_of_active opportunity member hcond
    by_cases hfull : (member.skillIds.filter (fun skillId =>
        (requiredSkillIdsOf opportunity).contains skillId)).length =
        (requiredSkillIdsOf opportunity).length
    · have hall : ∀ r ∈ requiredSkillIdsOf opportunity, r ∈ member.skillIds :=
        (filter_contains_length_eq_iff _ _ hnodupMember hnodupReq).mp hfull
      rw [if_pos (by
        rw [Bool.and_eq_true]
        exact ⟨by rw [beq_iff_eq]; exact hfull, decide_eq_true hrpos⟩)] at hmt
      rw [hmt]
      obtain ⟨r0, hr0⟩ := List.exists_mem_of_ne_nil _ hrne
      refine ⟨⟨fun _ => hall, fun _ => rfl⟩, ?_, ?_⟩
      · constructor
        · intro hcontra
          cases hcontra
        · intro ⟨_, hnall⟩
          exact absurd hall hnall
      · constructor
        · intro hcontra
          cases hcontra
        · intro hnone
          exact absurd (hall r0 hr0) (hnone r0 hr0)
    · have hnotall : ¬ ∀ r ∈ requiredSkillIdsOf opportunity,
          r ∈ member.skillIds := fun hall =>
        hfull ((filter_contains_length_eq_iff _ _ hnodupMember hnodupReq).mpr hall)
      rw [if_neg (fun hc => by
        simp only [Bool.and_eq_true] at hc
        exact hfull (beq_iff_eq.mp hc.1))] at hmt
      by_cases hsome : 0 < (member.skillIds.filter (fun skillId =>
          (requiredSkillIdsOf opportunity).contains skillId)).length
      · have hex : ∃ r ∈ requiredSkillIdsOf opportunity,
            r ∈ member.skillIds := by
          obtain ⟨x, hx⟩ := List.length_pos_iff_exists_mem.mp hsome
          have hx' := List.mem_filter.mp hx
          exact ⟨x, by simpa using hx'.2, hx'.1⟩
        rw [if_pos (decide_eq_true hsome)] at hmt
        rw [hmt]
        refine ⟨?_, ⟨fun _ => ⟨hex, hnotall⟩, fun _ => rfl⟩, ?_⟩
        · constructor
          · intro hcontra
            cases hcontra
          · intro hall
            exact absurd hall hnotall
        · constructor
          · intro hcontra
            cases hcontra
          · intro hnone
            obtain ⟨r0, hr0, hr0m⟩ := hex
            exact absurd hr0m (hnone r0 hr0)
      · have hnone : ∀ r ∈ requiredSkillIdsOf opportunity,
            r ∉ member.skillIds := by
          intro r hr hrm
          apply hsome
          apply List.length_pos_of_mem
          exact List.mem_filter.mpr ⟨hrm, by simpa using hr⟩
        rw [if_neg (fun hc => hsome (of_decide_eq_true hc))] at hmt
        rw [hmt]
        obtain ⟨r0, hr0⟩ := List.exists_mem_of_ne_nil _ hrne
        refine ⟨?_, ?_, ⟨fun _ => hnone, fun _ => rfl⟩⟩
        · constructor
          · intro hcontra
            cases hcontra
          · intro hall
            exact absurd (hall r0 hr0) (hnone r0 hr0)
        · constructor
          · intro hcontra
            cases hcontra
          · intro ⟨⟨r1, hr1, hr1m⟩, _⟩
            exact absurd hr1m (hnone r1 hr1)

/-- Witness for C2: a member holding the single required skill id is a
perfect match. -/
theorem membersWithScores_classification_witness :
    (scoreMember
      { requiredSkill := .many ["React"], requiredSkillIds := some (["s1"]) }
      { id := "m1", name := "Ana", email := "", role := none,
        skills := ["React"], skillIds := ["s1"], activeOpportunities := 0,
        completedOpportunities := 0 }).matchType = MatchType.perfectMatch :=
  ((membersWithScores_classification
    [{ id := "m1", name := "Ana", email := "", role := none,
       skills := ["React"], skillIds := ["s1"], activeOpportunities := 0,
       completedOpportunities := 0 }]
    { requiredSkill := .many ["React"], requiredSkillIds := some (["s1"]) }
    (scoreMember
      { requiredSkill := .many ["React"], requiredSkillIds := some (["s1"]) }
      { id := "m1", name := "Ana", email := "", role := none,
        skills := ["React"], skillIds := ["s1"], activeOpportunities := 0,
        completedOpportunities := 0 })
    (by decide) (by decide) (by decide)).2 (by decide) (by decide)).1.mpr
    (by decide)

/-- The three-way character-list comparison is non-positive exactly when the
first list is lexicographically at most the second. -/
theorem charListCompare_le_iff : ∀ xs ys : List Char,
    charListCompare xs ys ≤ 0 ↔ ¬ List.lt ys xs
  | [], [] => by
    constructor
    · intro _ h
      cases h
    · intro _
      norm_num [charListCompare]
  | [], _ :: _ => by
    constructor
    · intro _ h
      cases h
    · intro _
      norm_num [charListCompare]
  | x :: xs, [] => by
    constructor
    · intro h
      norm_num [charListCompare] at h
    · intro h
      exact absurd (List.lt.nil x xs) h
  | x :: xs, y :: ys => by
    rcases lt_trichotomy x y with hlt | heq | hgt
    · constructor
      · intro _ hcon
        cases hcon with
        | head _ _ h => exact absurd hlt (lt_asymm h)
        | tail h1 h2 h3 => exact absurd hlt h2
      · intro _
        norm_num [charListCompare, hlt]
    · subst heq
      have hstep : charListCompare (x :: xs) (x :: ys) = charListCompare xs ys := by
        simp [charListCompare, lt_irrefl]
      have hniff := charListCompare_le_iff xs ys
      rw [hstep]
      constructor
      · intro h hcon
        cases hcon with
        | head _ _ hh => exact absurd hh (lt_irrefl x)
        | tail h1 h2 h3 => exact absurd h3 (hniff.mp h)
      · intro h
        apply hniff.mpr
        intro hcon
        exact h (List.lt.tail (lt_irrefl x) (lt_irrefl x) hcon)
    · have hstep : charListCompare (x :: xs) (y :: ys) = 1 := by
        simp [charListCompare, lt_asymm hgt, hgt]
      constructor
      · intro h
        rw [hstep] at h
        norm_num at h
      · intro h
        exact absurd (List.lt.head ys xs hgt) h

/-- The string comparator is non-positive exactly for the lexicographic
string order. -/
theorem strCompareInt_le_iff (a b : String) :
    strCompareInt a b ≤ 0 ↔ a ≤ b := by
  rw [String.le_iff_toList_le]
  have h1 := charListCompare_le_iff a.data b.data
  rw [List.lt_iff_lex_lt] at h1
  exact h1.trans (not_lt (a := b.toList) (b := a.toList))

/-- The modal comparator is non-positive exactly for the rank-then-name
lexicographic order. -/
theorem sortByMatchType_le_iff (a b : MemberWithScore) :
    sortByMatchType a b ≤ 0 ↔
      (matchRank a.matchType < matchRank b.matchType ∨
        (matchRank a.matchType = matchRank b.matchType ∧ a.name ≤ b.name)) := by
  unfold sortByMatchType
  by_cases h : matchRank a.matchType = matchRank b.matchType
  · rw [if_neg (by simp [h])]
    rw [strCompareInt_le_iff]
    constructor
    · intro hle
      exact Or.inr ⟨h, hle⟩
    · intro hor
      rcases hor with hlt | ⟨_, hle⟩
      · rw [h] at hlt
        exact absurd hlt (lt_irrefl _)
      · exact hle
  · rw [if_pos h]
    constructor
    · intro hle
      left
      have hle2 : matchRank a.matchType ≤ matchRank b.matchType := by
        have := sub_nonpos.mp hle
        exact_mod_cast this
      exact lt_of_le_of_ne hle2 h
    · intro hor
      rcases hor with hlt | ⟨heq, _⟩
      · have : (matchRank a.matchType : Int) ≤ matchRank b.matchType := by
          exact_mod_cast le_of_lt hlt
        exact sub_nonpos.mpr this
      · exact absurd heq h

/-- The boolean comparator relations used by the modal's sorts are transitive
and total, as `List.mergeSort` requires. -/
theorem sortByMatchType_trans_total :
    (∀ a b c : MemberWithScore,
      decide (sortByMatchType a b ≤ 0) → decide (sortByMatchType b c ≤ 0) →
      decide (sortByMatchType a c ≤ 0)) ∧
    (∀ a b : MemberWithScore,
      decide (sortByMatchType a b ≤ 0) || decide (sortByMatchType b a ≤ 0)) ∧
    (∀ a b c : MemberWithScore,
      decide (strCompareInt a.name b.name ≤ 0) →
      decide (strCompareInt b.name c.name ≤ 0) →
      decide (strCompareInt a.name c.name ≤ 0)) ∧
    (∀ a b : MemberWithScore,
      decide (strCompareInt a.name b.name ≤ 0) ||
        decide (strCompareInt b.name a.name ≤ 0)) := by
  refine ⟨?_, ?_, ?_, ?_⟩
  · intro a b c hab hbc
    have h1 := (sortByMatchType_le_iff a b).mp (of_decide_eq_true hab)
    have h2 := (sortByMatchType_le_iff b c).mp (of_decide_eq_true hbc)
    apply decide_eq_true
    apply (sortByMatchType_le_iff a c).mpr
    rcases h1 with h1 | ⟨h1, h1n⟩ <;> rcases h2 with h2 | ⟨h2, h2n⟩
    · exact Or.inl (lt_trans h1 h2)
    · exact Or.inl (h2 ▸ h1)
    · exact Or.inl (h1 ▸ h2)
    · exact Or.inr ⟨h1.trans h2, le_trans h1n h2n⟩
  · intro a b
    rw [Bool.or_eq_true]
    rcases lt_trichotomy (matchRank a.matchType) (matchRank b.matchType)
      with h | h | h
    · exact Or.inl (decide_eq_true ((sortByMatchType_le_iff a b).mpr (Or.inl h)))
    · rcases le_total a.name b.name with hn | hn
      · exact Or.inl (decide_eq_true
          ((sortByMatchType_le_iff a b).mpr (Or.inr ⟨h, hn⟩)))
      · exact Or.inr (decide_eq_true
          ((sortByMatchType_le_iff b a).mpr (Or.inr ⟨h.symm, hn⟩)))
    · exact Or.inr (decide_eq_true ((sortByMatchType_le_iff b a).mpr (Or.inl h)))
  · intro a b c hab hbc
    have h1 := (strCompareInt_le_iff _ _).mp (of_decide_eq_true hab)
    have h2 := (strCompareInt_le_iff _ _).mp (of_decide_eq_true hbc)
    exact decide_eq_true ((strCompareInt_le_iff _ _).mpr (le_trans h1 h2))
  · intro a b
    rw [Bool.or_eq_true]
    rcases le_total a.name b.name with hn | hn
    · exact Or.inl (decide_eq_true ((strCompareInt_le_iff _ _).mpr hn))
    · exact Or.inr (decide_eq_true ((strCompareInt_le_iff _ _).mpr hn))

/-- Claim C3: with required skills, the modal's sorted list is ordered by
match rank (perfect before partial before none) and alphabetically by name
inside each rank; with no required skills (or only the pending placeholder)
it is ordered alphabetically by name. -/
theorem sortedMembers_order (teamMembers : List TeamMember)
    (opportunity : ModalOpportunity) (searchQuery : String) :
    ((hasOnlyPending opportunity.requiredSkill ||
        (requiredSkillIdsOf opportunity).length == 0) = false →
      List.Pairwise (fun a b : MemberWithScore =>
        matchRank a.matchType ≤ matchRank b.matchType ∧
        (matchRank a.matchType = matchRank b.matchType → a.name ≤ b.name))
        (sortedMembers teamMembers opportunity searchQuery)) ∧
    ((hasOnlyPending opportunity.requiredSkill ||
        (requiredSkillIdsOf opportunity).length == 0) = true →
      List.Pairwise (fun a b : MemberWithScore => a.name ≤ b.name)
        (sortedMembers teamMembers opportunity searchQuery)) := by
  constructor
  · intro hcond
    unfold sortedMembers
    rw [if_neg (by simp [hcond])]
    have hs := List.sorted_mergeSort
      sortByMatchType_trans_total.1 sortByMatchType_trans_total.2.1
      (filteredMembers (membersWithScores teamMembers opportunity) searchQuery)
    refine hs.imp ?_
    intro a b hab
    have h := (sortByMatchType_le_iff a b).mp (of_decide_eq_true hab)
    rcases h with h | ⟨h, hn⟩
    · exact ⟨le_of_lt h, fun heq => absurd (heq ▸ h) (lt_irrefl _)⟩
    · exact ⟨le_of_eq h, fun _ => hn⟩
  · intro hcond
    unfold sortedMembers
    rw [if_pos hcond]
    have hs := List.sorted_mergeSort
      sortByMatchType_trans_total.2.2.1 sortByMatchType_trans_total.2.2.2
      (filteredMembers (membersWithScores teamMembers opportunity) searchQuery)
    refine hs.imp ?_
    intro a b hab
    exact (strCompareInt_le_iff _ _).mp (of_decide_eq_true hab)

/-- Witness for C3 on a concrete two-member roster with one required skill. -/
theorem sortedMembers_order_witness :
    List.Pairwise (fun a b : MemberWithScore =>
      matchRank a.matchType ≤ matchRank b.matchType ∧
      (matchRank a.matchType = matchRank b.matchType → a.name ≤ b.name))
      (sortedMembers
        [{ id := "m1", name := "Zoe", email := "", role := none,
           skills := ["React"], skillIds := ["s1"], activeOpportunities := 0,
           completedOpportunities := 0 },
         { id := "m2", name := "Al", email := "", role := none,
           skills := [], skillIds := [], activeOpportunities := 0,
           completedOpportunities := 0 }]
        { requiredSkill := .many ["React"], requiredSkillIds := some (["s1"]) }
        "") :=
  (sortedMembers_order
    [{ id := "m1", name := "Zoe", email := "", role := none,
       skills := ["React"], skillIds := ["s1"], activeOpportunities := 0,
       completedOpportunities := 0 },
     { id := "m2", name := "Al", email := "", role := none,
       skills := [], skillIds := [], activeOpportunities := 0,
       completedOpportunities := 0 }]
    { requiredSkill := .many ["React"], requiredSkillIds := some (["s1"]) }
    "").1 (by decide)
